import Mathlib

/-
Verification development for the tRPC client runtime
(packages/client/src/createTRPCClient.ts).

The embedding models the dynamically-typed JavaScript values flowing through
the client as a small JSON value type `JVal` (with `Option JVal` standing for
possibly-`undefined` values), and models the asynchronous control flow of the
client as explicit, executable trace interpreters:

* `executeRequestJS` embeds the `executeRequest` method, with the body of its
  try block as an `Except`-valued computation (`execTry`) and the catch block
  as the handler, so "never throws across its own boundary" is a real theorem
  about the `Except` layer rather than a modelling artifact;
* `rqRun` embeds the cancellable-promise machinery of `request` (the
  `settled`/`aborted` flags, the abort signal and the single `.then`
  settlement) as a step machine over interleavings of `cancel()` calls and
  the executor's completion;
* `subOnceAux` embeds `subscriptionOnce`'s reconnect-on-408 recursion,
  parameterised by the intended outcome of each successive request, the point
  (if any) at which `cancel()` is invoked, whether an AbortController is
  configured, and whether the transport honours the abort signal;
* `subRun` embeds the `subscription` polling loop (onData / onError hooks,
  attemptIndex bookkeeping, setTimeout backoff, the stopped flag set by
  `unsubscribe`), faithfully reproducing which continuations do and do not
  consult the stopped flag in the source.

Single-threaded cooperative scheduling lets these interpreters be ordinary
structural recursions: within one loop instance the source never runs two
continuations concurrently.
-/

/-- JSON-like runtime values. `Option JVal` models a possibly-`undefined`
JavaScript value (`none` = `undefined`); `JVal.null` is JavaScript `null`. -/
inductive JVal where
  | null
  | bool (b : Bool)
  | num (n : Int)
  | str (s : String)
  | arr (elems : List JVal)
  | obj (fields : List (String × JVal))

/-- First-match lookup in an object's field list. -/
def lookupField : List (String × JVal) → String → Option JVal
  | [], _ => none
  | (k, v) :: rest, key => if k = key then some v else lookupField rest key

/-- Property read on a defined value: `undefined` (`none`) when the value is
not an object or lacks the field (prototype chains play no role here). -/
def jlookup : JVal → String → Option JVal
  | .obj fields, key => lookupField fields key
  | _, _ => none

/-- JavaScript truthiness of a possibly-`undefined` value. -/
def truthy : Option JVal → Bool
  | none => false
  | some .null => false
  | some (.bool b) => b
  | some (.num n) => n != 0
  | some (.str s) => s != ""
  | some (.arr _) => true
  | some (.obj _) => true

/-- Loose string coercion, used only for `Error` messages. -/
def jsToStr : Option JVal → String
  | none => "undefined"
  | some .null => "null"
  | some (.bool b) => toString b
  | some (.num n) => toString n
  | some (.str s) => s
  | some (.arr _) => ""
  | some (.obj _) => "[object Object]"

/-- The `TRPCClientError` class: the single error type surfaced to callers.
`hasRes` records whether a `Response` object was attached. -/
structure TRPCClientError where
  message : String
  json : Option JVal
  hasRes : Bool
  originalError : Option String
  shape : Option JVal

/-- The `TRPCClientError` constructor: `shape` is derived as `json?.error`. -/
def mkClientError (message : String) (resPresent : Bool) (json : Option JVal)
    (orig : Option String) : TRPCClientError :=
  { message := message
    json := json
    hasRes := resPresent
    originalError := orig
    shape := json.bind (fun j => jlookup j "error") }

/-- A thrown JavaScript value: either a `TRPCClientError` instance (relevant
to the `instanceof` test in the catch block) or an ordinary error carrying a
message (network failures, aborts, JSON parse errors, TypeErrors). -/
inductive Thrown where
  | js (message : String)
  | trpc (e : TRPCClientError)

/-- Whether a thrown value is an ordinary (non-`TRPCClientError`) error. -/
def isJs : Thrown → Bool
  | .js _ => true
  | .trpc _ => false

/-- A property read that can throw: reading any property of `undefined` or
`null` raises a TypeError. -/
def jsGet (v : Option JVal) (key : String) : Except Thrown (Option JVal) :=
  match v with
  | none => .error (.js ("Cannot read properties of undefined (reading " ++ key ++ ")"))
  | some .null => .error (.js ("Cannot read properties of null (reading " ++ key ++ ")"))
  | some j => .ok (jlookup j key)

/-- The tagged local result of `executeRequest`. -/
inductive ExecResult where
  | ok (data : Option JVal)
  | err (e : TRPCClientError)

/-- Behaviour of one HTTP exchange as seen by `executeRequest`:
`this.fetch` rejects, `res.json()` rejects, or a parsed JSON body arrives. -/
inductive FetchBehavior where
  | fetchThrows (t : Thrown)
  | jsonThrows (t : Thrown)
  | body (raw : JVal)

/-- Client configuration relevant to `executeRequest`: the transformer's
deserialize hook (which may throw or yield any value, `none` standing for
`undefined`/`null`-like results) and whether the global hooks are set. -/
structure ExecCfg where
  deserialize : JVal → Except Thrown (Option JVal)
  hasOnSuccess : Bool
  hasOnError : Bool

/-- Data carried out of the try block by a thrown exception: the thrown value
plus the `res` / `json` local variables as they stood at the throw point. -/
structure TryThrow where
  t : Thrown
  resPresent : Bool
  jsonVar : Option JVal

/-- The try block of `executeRequest`: fetch, parse, deserialize, then branch
on `json.ok`. On success it fires `onSuccess` (when configured) and yields
`{ok: true, data: json.data}`; on a failure envelope it yields `{ok: false,
error: new TRPCClientError(json.error.message, {json, res})}` with no hook
call; any exception escapes to the catch handler. -/
def execTry (cfg : ExecCfg) (fb : FetchBehavior) :
    Except TryThrow (ExecResult × List JVal) :=
  match fb with
  | .fetchThrows t => .error ⟨t, false, none⟩
  | .jsonThrows t => .error ⟨t, true, none⟩
  | .body raw =>
    match cfg.deserialize raw with
    | .error t => .error ⟨t, true, none⟩
    | .ok jsonVar =>
      match jsonVar with
      | none => .error ⟨.js "Cannot read properties of undefined (reading ok)", true, jsonVar⟩
      | some .null => .error ⟨.js "Cannot read properties of null (reading ok)", true, jsonVar⟩
      | some j =>
        if truthy (jlookup j "ok") then
          .ok (.ok (jlookup j "data"), if cfg.hasOnSuccess then [j] else [])
        else
          match jsGet (jlookup j "error") "message" with
          | .error t => .error ⟨t, true, some j⟩
          | .ok msgField =>
            .ok (.err (mkClientError (jsToStr msgField) true (some j) none), [])

/-- Observable outcome of one `executeRequest` call: the tagged result plus
the envelopes passed to `onSuccess` and the errors passed to `onError`. -/
structure ExecOut where
  result : ExecResult
  successCalls : List JVal
  errorCalls : List TRPCClientError

/-- The function `executeRequest` with its try/catch: the catch block re-types a thrown
non-`TRPCClientError` into one (attaching `res`, the failure envelope when
one was parsed, and the original error), fires `onError` when configured, and
returns the `{ok: false, error}` shape. A `.error` result of this function
would mean an exception escaped `executeRequest` itself. -/
def executeRequestJS (cfg : ExecCfg) (fb : FetchBehavior) : Except Thrown ExecOut :=
  match execTry cfg fb with
  | .ok (r, succs) => .ok { result := r, successCalls := succs, errorCalls := [] }
  | .error w =>
    let e := match w.t with
      | .trpc e0 => e0
      | .js msg =>
        let jsonArg := if truthy (w.jsonVar.bind (fun j => jlookup j "ok")) then none else w.jsonVar
        mkClientError msg w.resPresent jsonArg (some msg)
    .ok { result := .err e, successCalls := [], errorCalls := if cfg.hasOnError then [e] else [] }

/-- The function `executeRequest` as the total function it is proved to be (the fallback
branch is unreachable; see the never-throws theorem). -/
def executeRequestTotal (cfg : ExecCfg) (fb : FetchBehavior) : ExecOut :=
  match executeRequestJS cfg fb with
  | .ok out => out
  | .error _ => { result := .err (mkClientError "" false none none), successCalls := [], errorCalls := [] }

/-- One character of JSON string escaping. -/
def jsonEscapeChar (c : Char) : String :=
  if c = '"' then "\\\""
  else if c = '\\' then "\\\\"
  else if c = '\n' then "\\n"
  else if c = '\r' then "\\r"
  else if c = '\t' then "\\t"
  else String.mk [c]

/-- JSON string quoting. -/
def jsonQuote (s : String) : String :=
  "\"" ++ String.join (s.data.map jsonEscapeChar) ++ "\""

mutual
/-- Serialization as by `JSON.stringify` on defined values. -/
def jsonStringify : JVal → String
  | .null => "null"
  | .bool true => "true"
  | .bool false => "false"
  | .num n => toString n
  | .str s => jsonQuote s
  | .arr xs => "[" ++ jsonStringifyList xs ++ "]"
  | .obj fs => "\x7b" ++ jsonStringifyFields fs ++ "\x7d"

/-- Comma-separated serialization of array elements. -/
def jsonStringifyList : List JVal → String
  | [] => ""
  | [x] => jsonStringify x
  | x :: y :: rest => jsonStringify x ++ "," ++ jsonStringifyList (y :: rest)

/-- Comma-separated serialization of object fields. -/
def jsonStringifyFields : List (String × JVal) → String
  | [] => ""
  | [(k, v)] => jsonQuote k ++ ":" ++ jsonStringify v
  | (k, v) :: f :: rest => jsonQuote k ++ ":" ++ jsonStringify v ++ "," ++ jsonStringifyFields (f :: rest)
end

/-- Characters `encodeURIComponent` leaves unescaped. -/
def isEcUnreserved (c : Char) : Bool :=
  c.isAlphanum || c = '-' || c = '_' || c = '.' || c = '!' || c = '~' ||
    c = '*' || c.val = 39 || c = '(' || c = ')'

/-- Uppercase hex digit. -/
def hexUp (n : Nat) : Char :=
  if n < 10 then Char.ofNat (48 + n) else Char.ofNat (55 + n)

/-- Percent-encoding of one byte. -/
def pctByte (b : UInt8) : String :=
  String.mk ['%', hexUp (b.toNat / 16), hexUp (b.toNat % 16)]

/-- Percent-encoding as by `encodeURIComponent`: unreserved characters pass through, every other
character is replaced by the percent-encoding of its UTF-8 bytes. -/
def encodeURIComponent (s : String) : String :=
  String.join (s.data.map fun c =>
    if isEcUnreserved c then String.mk [c]
    else String.join (((String.mk [c]).toUTF8.toList).map pctByte))

/-- The three procedure kinds. -/
inductive ProcedureType where
  | query
  | mutation
  | subscription

/-- The HTTP intent built by `request`'s `reqOptsMap`. -/
structure ReqOpts where
  method : String
  body : Option String
  url : String

/-- The method `serializeInput`: absent (`undefined`) input passes through unserialized,
anything else (including `null`) goes through the transformer. -/
def serializeInput (tr : JVal → JVal) : Option JVal → Option JVal
  | none => none
  | some v => some (tr v)

/-- The loose `input != null` test: true exactly for `undefined` and `null`. -/
def isNullish : Option JVal → Bool
  | none => true
  | some .null => true
  | some _ => false

/-- The body string `JSON.stringify({input: serializeInput(input)})`: a property whose value
is `undefined` is dropped from the serialized object. -/
def stringifyInputBody (tr : JVal → JVal) (input : Option JVal) : String :=
  match serializeInput tr input with
  | none => "\x7b\x7d"
  | some v => "\x7b\"input\":" ++ jsonStringify v ++ "\x7d"

/-- The body of `reqOptsMap` for each procedure kind: GET with an optional
`?input=` query parameter for queries, POST/PATCH with a JSON body for
mutations/subscriptions. -/
def buildReq (tr : JVal → JVal) (base path : String) :
    ProcedureType → Option JVal → ReqOpts
  | .query, input =>
    { method := "GET"
      body := none
      url := base ++ "/" ++ path ++
        (match input with
         | none => ""
         | some .null => ""
         | some v => "?input=" ++ encodeURIComponent (jsonStringify (tr v))) }
  | .mutation, input =>
    { method := "POST", body := some (stringifyInputBody tr input), url := base ++ "/" ++ path }
  | .subscription, input =>
    { method := "PATCH", body := some (stringifyInputBody tr input), url := base ++ "/" ++ path }

/-- First-match lookup in the caller-supplied header record (record values
may be `undefined`, hence `Option String`). -/
def assocFind : List (String × Option String) → String → Option (Option String)
  | [], _ => none
  | (k, v) :: rest, key => if k = key then some v else assocFind rest key

/-- The method `getHeaders`: the object spread `{'content-type': 'application/json',
...getHeaders()}` resolved as a lookup — a caller-supplied entry wins over
the default. `none` as the first argument models an absent `getHeaders`
option. -/
def builtHeaders (caller : Option (List (String × Option String))) (key : String) :
    Option (Option String) :=
  match caller with
  | none => if key = "content-type" then some (some "application/json") else none
  | some cs =>
    match assocFind cs key with
    | some v => some v
    | none => if key = "content-type" then some (some "application/json") else none

/-- Observable events on one cancellable request: a `cancel()` call, or the
completion of the wrapped `executeRequest` (which runs the `.then` callback
setting `settled` and settling the promise in the same microtask drain, so no
user code can interleave between the two). -/
inductive RqEvent where
  | cancel
  | complete
deriving DecidableEq

/-- State of the `request` promise machinery: the `settled` flag, the state
of the AbortController's signal, the number of times the signal was actually
raised (a signal only transitions once; re-aborting an aborted controller is
a no-op), and the settle events fired so far. -/
structure RqState where
  settled : Bool
  signalAborted : Bool
  raises : Nat
  settleEvents : List ExecResult

/-- The error an abort-honouring transport rejects with, as re-typed by
`executeRequest`'s catch block (no envelope, no response). -/
def abortError : TRPCClientError :=
  mkClientError "The user aborted a request." false none (some "The user aborted a request.")

/-- One step of the request machinery. `cancel()` is a no-op once `settled`
is true, otherwise it raises the abort signal (when an AbortController is
configured). On completion the effective result is the executor's intended
result, except that an abort-honouring transport (`honors = true`) delivers
the abort rejection when the signal was raised first; the `.then` callback
sets `settled` and fires exactly one of resolve/reject. -/
def rqStep (hasAC honors : Bool) (intended : ExecResult) (s : RqState) :
    RqEvent → RqState
  | .cancel =>
    if s.settled then s
    else if hasAC && !s.signalAborted then
      { s with signalAborted := true, raises := s.raises + 1 }
    else s
  | .complete =>
    let eff := if hasAC && honors && s.signalAborted then ExecResult.err abortError else intended
    { s with settled := true, settleEvents := s.settleEvents ++ [eff] }

/-- Run the request machinery over an interleaving of events from the fresh
state. -/
def rqRun (hasAC honors : Bool) (intended : ExecResult) (evs : List RqEvent) : RqState :=
  evs.foldl (rqStep hasAC honors intended) ⟨false, false, 0, []⟩

/-- The reconnect test in `subscriptionOnce`: `err.json?.statusCode === 408`
reads `statusCode` from the top level of the stored envelope. -/
def is408 (e : TRPCClientError) : Bool :=
  match e.json with
  | none => false
  | some j =>
    match jlookup j "statusCode" with
    | some (.num n) => n == 408
    | _ => false

/-- A settlement of the `subscriptionOnce` promise. -/
inductive SettleEv where
  | resolved (data : Option JVal)
  | rejected (e : TRPCClientError)

/-- Observable outcome of one `subscriptionOnce` run: the inputs of the
requests it issued, and the settle events its promise fired. -/
structure SubOnceOut where
  reqInputs : List JVal
  settles : List SettleEv

/-- Whether `cancel()` is invoked while request number `idx` is in flight. -/
def cancelHere (cancelAt : Option Nat) (idx : Nat) : Bool :=
  match cancelAt with
  | some c => c == idx
  | none => false

/-- The `exec` recursion of `subscriptionOnce`: bail out silently when the
stopped flag is set (set by `cancel()`), otherwise issue the next request.
A `cancel()` during the flight of request `idx` sets stopped and — when an
AbortController is configured and the transport honours the signal — turns
that request's outcome into the abort rejection. A rejection whose stored
envelope has top-level `statusCode` 408 re-enters `exec` with the same input
and no delay; any other outcome settles the promise. The outcome list gives
the intended result of each successive request; an exhausted list models a
transport that never completes the next request. -/
def subOnceAux (hasAC honors : Bool) (cancelAt : Option Nat) (input : JVal) :
    Bool → Nat → List ExecResult → SubOnceOut
  | true, _, _ => ⟨[], []⟩
  | false, _, [] => ⟨[], []⟩
  | false, idx, o :: rest =>
    let eff := if cancelHere cancelAt idx && hasAC && honors then ExecResult.err abortError else o
    match eff with
    | .ok d => ⟨[input], [.resolved d]⟩
    | .err e =>
      if is408 e then
        let r := subOnceAux hasAC honors cancelAt input (cancelHere cancelAt idx) (idx + 1) rest
        ⟨input :: r.reqInputs, r.settles⟩
      else ⟨[input], [.rejected e]⟩

/-- A full `subscriptionOnce` run from the fresh (not stopped) state. -/
def subOnceRun (hasAC honors : Bool) (cancelAt : Option Nat) (input : JVal)
    (outcomes : List ExecResult) : SubOnceOut :=
  subOnceAux hasAC honors cancelAt input false 0 outcomes

/-- Whether some outcome terminates the reconnect chain (a success, or a
failure not recognised as a 408 reconnect signal). -/
def hasTerminal (outcomes : List ExecResult) : Bool :=
  outcomes.any fun o =>
    match o with
    | .ok _ => true
    | .err e => !is408 e

/-- The backoff schedule. -/
def retryDelay (attemptIndex : Nat) : Nat :=
  if attemptIndex == 0 then 0 else min (1000 * 2 ^ attemptIndex) 30000

/-- Behaviour of one cycle of the subscription loop, i.e. of one
`subscriptionOnce` call together with the caller-supplied hooks: the promise
stays pending forever, or resolves with data (after which `onData` or
`nextInput` may throw a value `t`), or rejects with a surfaced error. -/
inductive CycleBehavior where
  | pending
  | succ (data : JVal) (thrown : Option Thrown)
  | fail (e : TRPCClientError)

/-- When `unsubscribe()` is invoked: never, while cycle `k` is in flight, or
during the backoff delay scheduled after cycle `k` failed. -/
inductive StopPoint where
  | never
  | duringFlight (k : Nat)
  | duringDelay (k : Nat)

/-- Whether the stopped flag is already set when cycle `k`'s catch block
runs (the only place in the loop that consults it). -/
def stoppedAtCatch : StopPoint → Nat → Bool
  | .never, _ => false
  | .duringFlight j, k => j ≤ k
  | .duringDelay j, k => j < k

/-- Observable events of the subscription loop: a `subscriptionOnce` request
issued with a given input, an `onData` delivery, an `onError` delivery, and a
backoff delay scheduled via `setTimeout`. -/
inductive SubEv where
  | req (input : JVal)
  | onData (data : JVal)
  | onError (t : Thrown)
  | delay (ms : Nat)

/-- The `exec` recursion of the `subscription` loop. Faithful points: the
success path resets `attemptIndex` to 0 before `onData` and recurses with the
caller's `nextInput` immediately, consulting no stopped flag; a throw from
`onData`/`nextInput` lands in the same catch block as a rejection; the catch
block returns silently when stopped, otherwise fires `onError`, increments
`attemptIndex` and schedules `exec` with the same input after
`retryDelay(attemptIndex)`; and the timer continuation re-enters `exec`
unconditionally — the source gates neither it nor the success path on the
stopped flag. -/
def subRun (next : JVal → JVal) (stopAt : StopPoint) :
    List CycleBehavior → Nat → JVal → Nat → List SubEv
  | [], _, _, _ => []
  | b :: rest, k, input, ai =>
    SubEv.req input ::
    match b with
    | .pending => []
    | .succ d thrown =>
      SubEv.onData d ::
      (match thrown with
       | none => subRun next stopAt rest (k + 1) (next d) 0
       | some t =>
         if stoppedAtCatch stopAt k then []
         else SubEv.onError t :: SubEv.delay (retryDelay 1) ::
           subRun next stopAt rest (k + 1) input 1)
    | .fail e =>
      if stoppedAtCatch stopAt k then []
      else SubEv.onError (.trpc e) :: SubEv.delay (retryDelay (ai + 1)) ::
        subRun next stopAt rest (k + 1) input (ai + 1)

/-- Discriminant check: the envelope's `ok` field is literally `true`. -/
def isOkTrue (j : JVal) : Bool :=
  match jlookup j "ok" with
  | some (.bool true) => true
  | _ => false

/-- Discriminant check: the envelope's `ok` field is literally `false`. -/
def isOkFalse (j : JVal) : Bool :=
  match jlookup j "ok" with
  | some (.bool false) => true
  | _ => false

/-- The envelope's `error` field is an object with a string `message`. -/
def hasErrObjWithMsg (j : JVal) : Bool :=
  match jlookup j "error" with
  | some (.obj fs) =>
    match lookupField fs "message" with
    | some (.str _) => true
    | _ => false
  | _ => false

/-- Modelled from the spec: the Response Envelope data model (the server
package defining `HTTPResponseEnvelope` is not part of this source tree).
"Success: {ok: true, data: opaque value}; Failure: {ok: false, error:
{message: string, statusCode: optional integer, ...server-defined fields}};
`ok` is the discriminant." -/
def wfEnvelope (j : JVal) : Bool :=
  isOkTrue j || (isOkFalse j && hasErrObjWithMsg j)

/-- A default client configuration: identity deserializer, both hooks set. -/
def cfg0 : ExecCfg :=
  { deserialize := fun r => .ok (some r), hasOnSuccess := true, hasOnError := true }

/-- A success envelope fixture. -/
def envOkData : JVal :=
  .obj [("ok", .bool true), ("data", .str "payload")]

/-- A failure envelope whose `statusCode` sits inside the `error` object, as
the spec's data model places it. -/
def envLower408 : JVal :=
  .obj [("ok", .bool false),
        ("error", .obj [("message", .str "please reconnect"), ("statusCode", .num 408)])]

/-- A failure envelope carrying `statusCode` at the top level of the
envelope, next to `ok`. -/
def envTop408 : JVal :=
  .obj [("ok", .bool false), ("statusCode", .num 408),
        ("error", .obj [("message", .str "please reconnect")])]

/-- A failure envelope for an ordinary error. -/
def envConflict : JVal :=
  .obj [("ok", .bool false),
        ("error", .obj [("message", .str "conflict"), ("statusCode", .num 409)])]

/-- The client error `executeRequest` builds from `envTop408`. -/
def err408top : TRPCClientError :=
  mkClientError "please reconnect" true (some envTop408) none

/-- An ordinary surfaced subscription-cycle error. -/
def errBoom : TRPCClientError :=
  mkClientError "boom" true none (some "boom")

/-- C1 (counterexample): a well-formed Failure Envelope whose `statusCode`
lives inside the envelope's `error` object — as the spec's data model places
it — does NOT trigger the reconnect: routed through `executeRequest` and
`subscriptionOnce`, the rejection is surfaced to the caller and no additional
request is issued, because the source reads `err.json?.statusCode` from the
top level of the envelope. -/
theorem c1_errorLevel408_not_retried :
    wfEnvelope envLower408 = true ∧
    jlookup envLower408 "error" =
      some (.obj [("message", .str "please reconnect"), ("statusCode", .num 408)]) ∧
    jlookup (.obj [("message", .str "please reconnect"), ("statusCode", .num 408)])
      "statusCode" = some (.num 408) ∧
    (subOnceRun true true none (.str "i")
      [(executeRequestTotal cfg0 (.body envLower408)).result]).reqInputs.length = 1 ∧
    (subOnceRun true true none (.str "i")
      [(executeRequestTotal cfg0 (.body envLower408)).result]).settles =
      [.rejected (mkClientError "please reconnect" true (some envLower408) none)] :=
  ⟨rfl, rfl, rfl, rfl, rfl⟩

/-- C1 (amended): the reconnect is keyed on the TOP-LEVEL `statusCode` of the
stored envelope (`err.json?.statusCode === 408`), not on the `error` object's
`statusCode`. A rejection recognised as a 408 immediately re-issues exactly
one additional request with the same input and is never itself settled into
the promise; a rejection not recognised as a 408 propagates to the caller. -/
theorem c1_reconnect_on_topLevel_408 :
    (∀ (hasAC honors : Bool) (input : JVal) (e : TRPCClientError)
        (rest : List ExecResult) (idx : Nat),
      is408 e = true →
      subOnceAux hasAC honors none input false idx (.err e :: rest) =
        ⟨input :: (subOnceAux hasAC honors none input false (idx + 1) rest).reqInputs,
         (subOnceAux hasAC honors none input false (idx + 1) rest).settles⟩)
    ∧ (∀ (hasAC honors : Bool) (input : JVal) (e : TRPCClientError)
        (rest : List ExecResult) (idx : Nat),
      is408 e = false →
      subOnceAux hasAC honors none input false idx (.err e :: rest) =
        ⟨[input], [.rejected e]⟩)
    ∧ (∀ e : TRPCClientError,
      is408 e = true ↔ ∃ j, e.json = some j ∧ jlookup j "statusCode" = some (.num 408)) := by
  refine ⟨?_, ?_, ?_⟩
  · intro hasAC honors input e rest idx h
    simp [subOnceAux, cancelHere, h]
  · intro hasAC honors input e rest idx h
    simp [subOnceAux, cancelHere, h]
  · intro e
    unfold is408
    cases hj : e.json with
    | none => simp
    | some j =>
      cases hl : jlookup j "statusCode" with
      | none => simp [hl]
      | some v => cases v <;> simp [hl]

/-- C1 (witness): a top-level 408 rejection re-issues one request with the
same input and contributes no settlement of its own. -/
theorem c1_reconnect_on_topLevel_408_witness :
    is408 err408top = true ∧
    subOnceAux true true none (.str "i") false 0
        [.err err408top, .ok (some (.str "d"))] =
      ⟨(.str "i") ::
        (subOnceAux true true none (.str "i") false 1 [.ok (some (.str "d"))]).reqInputs,
       (subOnceAux true true none (.str "i") false 1 [.ok (some (.str "d"))]).settles⟩ :=
  ⟨rfl, c1_reconnect_on_topLevel_408.1 true true (.str "i") err408top
    [.ok (some (.str "d"))] 0 rfl⟩

/-- C2 (code evaluated at the failing input): cycle 0 fails with an ordinary
error, a retry is scheduled with backoff 2000 ms, `unsubscribe()` is called
during that delay — yet the timer continuation re-enters the loop with no
stopped check, issues a second request with the same input, and on its
success invokes `onData` after the unsubscribe. The claim (and the spec's
"must gate the retry continuation") require that neither happens. -/
theorem c2_retry_after_unsubscribe_fires_hooks :
    subRun (fun j => j) (.duringDelay 0) [.fail errBoom, .succ (.str "d") none]
        0 (.str "i0") 0 =
      [.req (.str "i0"), .onError (.trpc errBoom), .delay 2000,
       .req (.str "i0"), .onData (.str "d")] := rfl

/-- C10: a throw from the caller's `onData`/`nextInput` during a successful
cycle lands in the loop's catch block and is treated as a cycle failure:
`onError` receives the thrown value, `attemptIndex` becomes 1 (it was reset
to 0 just before the hooks ran), and the same input is retried after
`retryDelay 1` — so the retried request can deliver the same data to
`onData` a second time, as the concrete two-cycle run shows. -/
theorem c10_hook_throw_is_cycle_failure :
    (∀ (next : JVal → JVal) (d : JVal) (t : Thrown) (i : JVal)
        (rest : List CycleBehavior) (k ai : Nat),
      subRun next .never (.succ d (some t) :: rest) k i ai =
        .req i :: .onData d :: .onError t :: .delay (retryDelay 1) ::
          subRun next .never rest (k + 1) i 1)
    ∧ (∀ (next : JVal → JVal) (d : JVal) (t : Thrown) (i : JVal),
      subRun next .never [.succ d (some t), .succ d none] 0 i 0 =
        [.req i, .onData d, .onError t, .delay (retryDelay 1), .req i, .onData d]) := by
  refine ⟨?_, ?_⟩
  · intro next d t i rest k ai
    simp [subRun, stoppedAtCatch]
  · intro next d t i
    simp [subRun, stoppedAtCatch]

/-- C9: the backoff schedule is 0 for attempt 0 and `min(1000·2^n, 30000)`
otherwise; a surfaced cycle failure with the loop not stopped fires
`onError`, increments `attemptIndex` by exactly one and schedules a retry of
the same input after `retryDelay` of the incremented index; a successful
cycle resets `attemptIndex` to 0 and continues immediately with the caller's
next input. -/
theorem c9_backoff_policy :
    (∀ n : Nat, retryDelay n = if n = 0 then 0 else min (1000 * 2 ^ n) 30000)
    ∧ (∀ (next : JVal → JVal) (stopAt : StopPoint) (e : TRPCClientError)
        (rest : List CycleBehavior) (k : Nat) (i : JVal) (ai : Nat),
      stoppedAtCatch stopAt k = false →
      subRun next stopAt (.fail e :: rest) k i ai =
        .req i :: .onError (.trpc e) :: .delay (retryDelay (ai + 1)) ::
          subRun next stopAt rest (k + 1) i (ai + 1))
    ∧ (∀ (next : JVal → JVal) (stopAt : StopPoint) (d : JVal)
        (rest : List CycleBehavior) (k : Nat) (i : JVal) (ai : Nat),
      subRun next stopAt (.succ d none :: rest) k i ai =
        .req i :: .onData d :: subRun next stopAt rest (k + 1) (next d) 0) := by
  refine ⟨?_, ?_, ?_⟩
  · intro n
    cases n <;> simp [retryDelay]
  · intro next stopAt e rest k i ai h
    simp [subRun, h]
  · intro next stopAt d rest k i ai
    simp [subRun]

/-- C9 (witness): the retry unfolding at a concrete failed cycle. -/
theorem c9_backoff_policy_witness :
    stoppedAtCatch .never 0 = false ∧
    subRun (fun j => j) .never [.fail errBoom] 0 (.str "i") 0 =
      .req (.str "i") :: .onError (.trpc errBoom) :: .delay (retryDelay 1) ::
        subRun (fun j => j) .never [] 1 (.str "i") 1 :=
  ⟨rfl, c9_backoff_policy.2.1 (fun j => j) .never errBoom [] 0 (.str "i") 0 rfl⟩

/-- C7 (counterexample): a present but `null` input is not treated like a
present input — the loose `input != null` test omits the `?input=` parameter
for it, producing exactly the URL of an absent input; a present falsy input
such as `0` does carry the parameter. So "omitted iff absent" fails at
`input = null`. -/
theorem c7_present_null_input_omits_param :
    (buildReq (fun j => j) "b" "p" .query (some .null)).url =
      (buildReq (fun j => j) "b" "p" .query none).url ∧
    (buildReq (fun j => j) "b" "p" .query (some (.num 0))).url ≠
      (buildReq (fun j => j) "b" "p" .query none).url := by
  refine ⟨rfl, ?_⟩
  intro h
  simp [buildReq] at h
  revert h
  decide

/-- C7 (amended): the `?input=` query parameter is omitted exactly when the
input is nullish (absent/`undefined`, or present `null`); for every other
present input — including empty strings and other falsy values — the
parameter carries the transformer-serialized, JSON-encoded, percent-encoded
input. -/
theorem c7_query_param_iff_not_nullish :
    (∀ (tr : JVal → JVal) (base path : String),
      (buildReq tr base path .query none).url = base ++ "/" ++ path)
    ∧ (∀ (tr : JVal → JVal) (base path : String),
      (buildReq tr base path .query (some .null)).url = base ++ "/" ++ path)
    ∧ (∀ (tr : JVal → JVal) (base path : String) (v : JVal),
      isNullish (some v) = false →
      (buildReq tr base path .query (some v)).url =
        base ++ "/" ++ path ++
          ("?input=" ++ encodeURIComponent (jsonStringify (tr v)))) := by
  refine ⟨?_, ?_, ?_⟩
  · intro tr base path
    simp [buildReq]
  · intro tr base path
    simp [buildReq]
  · intro tr base path v h
    cases v <;> simp_all [buildReq, isNullish]

/-- C7 (witness): a present empty-string input carries the parameter. -/
theorem c7_query_param_iff_not_nullish_witness :
    isNullish (some (.str "")) = false ∧
    (buildReq (fun j => j) "b" "p" .query (some (.str ""))).url =
      "b" ++ "/" ++ "p" ++
        ("?input=" ++ encodeURIComponent (jsonStringify (.str ""))) :=
  ⟨rfl, c7_query_param_iff_not_nullish.2.2 (fun j => j) "b" "p" (.str "") rfl⟩

/-- C8 (counterexample): caller-supplied headers are spread after the
default, so a caller that supplies its own `content-type` overrides
`application/json` — the built request then does not carry
`content-type: application/json`. -/
theorem c8_caller_can_override_content_type :
    builtHeaders (some [("content-type", some "text/plain")]) "content-type" =
      some (some "text/plain") ∧
    (some "text/plain" : Option String) ≠ some "application/json" :=
  ⟨rfl, by decide⟩

/-- C8 (amended): every built request uses GET with no body for queries,
POST for mutations and PATCH for subscriptions (each with the JSON body
`{"input": serialize(input)}`, the key dropped when the input is absent),
against URL `base + "/" + path`; headers are the caller-supplied record
with `content-type: application/json` as a default that applies exactly
when the caller does not supply that key. -/
theorem c8_wire_contract :
    (∀ (tr : JVal → JVal) (base path : String) (input : Option JVal),
      (buildReq tr base path .query input).method = "GET" ∧
      (buildReq tr base path .query input).body = none)
    ∧ (∀ (tr : JVal → JVal) (base path : String) (input : Option JVal),
      buildReq tr base path .mutation input =
        ⟨"POST", some (stringifyInputBody tr input), base ++ "/" ++ path⟩)
    ∧ (∀ (tr : JVal → JVal) (base path : String) (input : Option JVal),
      buildReq tr base path .subscription input =
        ⟨"PATCH", some (stringifyInputBody tr input), base ++ "/" ++ path⟩)
    ∧ builtHeaders none "content-type" = some (some "application/json")
    ∧ (∀ (cs : List (String × Option String)) (k : String) (v : Option String),
      assocFind cs k = some v → builtHeaders (some cs) k = some v)
    ∧ (∀ cs : List (String × Option String),
      assocFind cs "content-type" = none →
      builtHeaders (some cs) "content-type" = some (some "application/json")) := by
  refine ⟨?_, ?_, ?_, rfl, ?_, ?_⟩
  · intro tr base path input
    exact ⟨rfl, rfl⟩
  · intro tr base path input
    rfl
  · intro tr base path input
    rfl
  · intro cs k v h
    simp [builtHeaders, h]
  · intro cs h
    simp [builtHeaders, h]

/-- C8 (witness): a caller header record without a `content-type` entry gets
the default, and its own entries are carried through. -/
theorem c8_wire_contract_witness :
    assocFind [("x-token", some "t")] "content-type" = none ∧
    builtHeaders (some [("x-token", some "t")]) "content-type" =
      some (some "application/json") ∧
    assocFind [("x-token", some "t")] "x-token" = some (some "t") ∧
    builtHeaders (some [("x-token", some "t")]) "x-token" = some (some "t") :=
  ⟨rfl, c8_wire_contract.2.2.2.2.2 [("x-token", some "t")] rfl, rfl,
   c8_wire_contract.2.2.2.2.1 [("x-token", some "t")] "x-token" (some "t") rfl⟩

/-- Cancel events are no-ops once the promise is settled, once the signal is
already aborted, or when no AbortController is configured. -/
theorem rq_cancel_noop (hasAC honors : Bool) (intended : ExecResult) (s : RqState)
    (hs : s.settled = true ∨ s.signalAborted = true ∨ hasAC = false) :
    ∀ l : List RqEvent, (∀ e ∈ l, e = RqEvent.cancel) →
    List.foldl (rqStep hasAC honors intended) s l = s := by
  intro l
  induction l with
  | nil => intro _; rfl
  | cons c rest ih =>
    intro hl
    have hc : c = RqEvent.cancel := hl c (by simp)
    subst hc
    have hstep : rqStep hasAC honors intended s .cancel = s := by
      rcases hs with h | h | h <;> simp [rqStep, h]
    rw [List.foldl_cons, hstep]
    exact ih (fun e he => hl e (by simp [he]))

/-- Completion settles the promise exactly once, after which trailing cancel
events change nothing. -/
theorem rq_run_complete (hasAC honors : Bool) (intended : ExecResult)
    (post : List RqEvent) (hpost : ∀ e ∈ post, e = RqEvent.cancel) (s : RqState) :
    List.foldl (rqStep hasAC honors intended) s (RqEvent.complete :: post) =
      { s with
          settled := true
          settleEvents := s.settleEvents ++
            [if hasAC && honors && s.signalAborted then .err abortError else intended] } := by
  rw [List.foldl_cons]
  exact rq_cancel_noop hasAC honors intended _ (Or.inl rfl) post hpost

/-- A run of cancel events from the fresh state leaves the promise
unsettled; the signal is raised exactly once when an AbortController is
configured and at least one cancel occurred. -/
theorem rq_pre (hasAC honors : Bool) (intended : ExecResult)
    (pre : List RqEvent) (hpre : ∀ e ∈ pre, e = RqEvent.cancel) :
    List.foldl (rqStep hasAC honors intended) ⟨false, false, 0, []⟩ pre =
      if hasAC = true ∧ pre ≠ [] then ⟨false, true, 1, []⟩ else ⟨false, false, 0, []⟩ := by
  cases pre with
  | nil => simp
  | cons c pre' =>
    have hc : c = RqEvent.cancel := hpre c (by simp)
    subst hc
    rw [List.foldl_cons]
    cases hac : hasAC with
    | true =>
      have hstep : rqStep true honors intended ⟨false, false, 0, []⟩ .cancel =
          ⟨false, true, 1, []⟩ := rfl
      rw [hstep, rq_cancel_noop true honors intended _ (Or.inr (Or.inl rfl)) pre'
        (fun e he => hpre e (by simp [he]))]
      simp
    | false =>
      have hstep : rqStep false honors intended ⟨false, false, 0, []⟩ .cancel =
          ⟨false, false, 0, []⟩ := rfl
      rw [hstep, rq_cancel_noop false honors intended _ (Or.inr (Or.inr rfl)) pre'
        (fun e he => hpre e (by simp [he]))]
      simp

/-- Closed form of a full request run: cancels, one completion, cancels. -/
theorem rq_full_run (hasAC honors : Bool) (intended : ExecResult)
    (pre post : List RqEvent) (hpre : ∀ e ∈ pre, e = RqEvent.cancel)
    (hpost : ∀ e ∈ post, e = RqEvent.cancel) :
    rqRun hasAC honors intended (pre ++ RqEvent.complete :: post) =
      if hasAC = true ∧ pre ≠ [] then
        ⟨true, true, 1, [if honors then .err abortError else intended]⟩
      else ⟨true, false, 0, [intended]⟩ := by
  unfold rqRun
  rw [List.foldl_append, rq_pre hasAC honors intended pre hpre]
  by_cases hc : hasAC = true ∧ pre ≠ []
  · rw [if_pos hc, rq_run_complete hasAC honors intended post hpost _, if_pos hc]
    simp [hc.1]
  · rw [if_neg hc, rq_run_complete hasAC honors intended post hpost _, if_neg hc]
    simp

/-- The `subscriptionOnce` promise never settles more than once, whatever the
outcomes, the cancellation point and the abort configuration. -/
theorem subOnce_settles_le_one (hasAC honors : Bool) (cancelAt : Option Nat)
    (input : JVal) :
    ∀ (l : List ExecResult) (stopped : Bool) (idx : Nat),
    (subOnceAux hasAC honors cancelAt input stopped idx l).settles.length ≤ 1 := by
  intro l
  induction l with
  | nil => intro stopped idx; cases stopped <;> simp [subOnceAux]
  | cons o rest ih =>
    intro stopped idx
    cases stopped with
    | true => simp [subOnceAux]
    | false =>
      simp only [subOnceAux]
      split
      · simp
      · split
        · exact ih _ _
        · simp

/-- With no cancellation, the `subscriptionOnce` promise settles exactly once
as soon as some outcome terminates the reconnect chain. -/
theorem subOnce_none_settles_one (hasAC honors : Bool) (input : JVal) :
    ∀ l : List ExecResult, hasTerminal l = true → ∀ idx : Nat,
    (subOnceAux hasAC honors none input false idx l).settles.length = 1 := by
  intro l
  induction l with
  | nil => intro h; simp [hasTerminal] at h
  | cons o rest ih =>
    intro h idx
    cases o with
    | ok d => simp [subOnceAux, cancelHere]
    | err e =>
      by_cases h408 : is408 e = true
      · have hunf : subOnceAux hasAC honors none input false idx (.err e :: rest) =
            ⟨input :: (subOnceAux hasAC honors none input false (idx + 1) rest).reqInputs,
             (subOnceAux hasAC honors none input false (idx + 1) rest).settles⟩ := by
          simp [subOnceAux, cancelHere, h408]
        rw [hunf]
        exact ih (by simpa [hasTerminal, h408] using h) (idx + 1)
      · have hunf : subOnceAux hasAC honors none input false idx (.err e :: rest) =
            ⟨[input], [.rejected e]⟩ := by
          simp [subOnceAux, cancelHere, h408]
        rw [hunf]
        rfl

/-- C3 (counterexample): a cancelled `subscriptionOnce` promise can settle
zero times. With no AbortController configured (`cancel()` is then a no-op on
the wire, a configuration the design accepts), `cancel()` during the flight
of a request whose outcome is a reconnect-signal rejection (top-level
statusCode 408, produced here by the real executor) makes the recursive
`exec` hit the stopped check and return without ever resolving or rejecting
— the request completed, yet the promise stays pending forever. -/
theorem c3_cancelled_subOnce_never_settles :
    (subOnceRun false true (some 0) (.str "i")
      [(executeRequestTotal cfg0 (.body envTop408)).result]).settles = [] ∧
    (subOnceRun false true (some 0) (.str "i")
      [(executeRequestTotal cfg0 (.body envTop408)).result]).reqInputs = [.str "i"] :=
  ⟨rfl, rfl⟩

/-- C3 (amended): the promise returned by `request` (hence by
`query`/`mutation`) settles exactly once for every interleaving of `cancel()`
calls around the executor's single completion; the promise returned by
`subscriptionOnce` settles at most once, and exactly once whenever it is not
cancelled and some outcome terminates the reconnect chain — but a cancelled
`subscriptionOnce` may settle zero times. -/
theorem c3_settles_exactly_once_except_cancelled_subOnce :
    (∀ (hasAC honors : Bool) (intended : ExecResult) (pre post : List RqEvent),
      (∀ e ∈ pre, e = RqEvent.cancel) → (∀ e ∈ post, e = RqEvent.cancel) →
      (rqRun hasAC honors intended (pre ++ RqEvent.complete :: post)).settleEvents.length = 1)
    ∧ (∀ (hasAC honors : Bool) (cancelAt : Option Nat) (input : JVal)
        (outcomes : List ExecResult),
      (subOnceRun hasAC honors cancelAt input outcomes).settles.length ≤ 1)
    ∧ (∀ (hasAC honors : Bool) (input : JVal) (outcomes : List ExecResult),
      hasTerminal outcomes = true →
      (subOnceRun hasAC honors none input outcomes).settles.length = 1) := by
  refine ⟨?_, ?_, ?_⟩
  · intro hasAC honors intended pre post hpre hpost
    rw [rq_full_run hasAC honors intended pre post hpre hpost]
    split <;> simp
  · intro hasAC honors cancelAt input outcomes
    exact subOnce_settles_le_one hasAC honors cancelAt input outcomes false 0
  · intro hasAC honors input outcomes h
    exact subOnce_none_settles_one hasAC honors input outcomes h 0

/-- C3 (witness): a concrete uncancelled run settles exactly once on both
layers. -/
theorem c3_settles_exactly_once_except_cancelled_subOnce_witness :
    hasTerminal [.ok (some (.str "d"))] = true ∧
    (rqRun true true (.ok (some (.str "d")))
      ([RqEvent.cancel] ++ RqEvent.complete :: [])).settleEvents.length = 1 ∧
    (subOnceRun true true none (.str "i") [.ok (some (.str "d"))]).settles.length = 1 :=
  ⟨rfl,
   c3_settles_exactly_once_except_cancelled_subOnce.1 true true (.ok (some (.str "d")))
     [RqEvent.cancel] [] (by simp) (by simp),
   c3_settles_exactly_once_except_cancelled_subOnce.2.2 true true (.str "i")
     [.ok (some (.str "d"))] rfl⟩

/-- C4: for a request with an AbortController configured and a transport
that honours the abort signal: any number of `cancel()` calls before
settlement raises the signal exactly once (further calls find the signal
already aborted) and the promise settles by rejection — never with data;
`cancel()` calls after settlement raise nothing and leave the final state
exactly as it was; across any interleaving the signal is raised at most
once. -/
theorem c4_cancel_abort_semantics :
    ∀ (intended : ExecResult) (pre post : List RqEvent),
    (∀ e ∈ pre, e = RqEvent.cancel) → (∀ e ∈ post, e = RqEvent.cancel) →
    (pre = [] →
      (rqRun true true intended (pre ++ RqEvent.complete :: post)).raises = 0 ∧
      (rqRun true true intended (pre ++ RqEvent.complete :: post)).settleEvents = [intended])
    ∧ (pre ≠ [] →
      (rqRun true true intended (pre ++ RqEvent.complete :: post)).raises = 1 ∧
      (rqRun true true intended (pre ++ RqEvent.complete :: post)).settleEvents =
        [.err abortError])
    ∧ (rqRun true true intended (pre ++ RqEvent.complete :: post)).raises ≤ 1
    ∧ rqRun true true intended (pre ++ RqEvent.complete :: post) =
        rqRun true true intended (pre ++ [RqEvent.complete]) := by
  intro intended pre post hpre hpost
  rw [rq_full_run true true intended pre post hpre hpost,
    rq_full_run true true intended pre [] hpre (by simp)]
  by_cases hc : pre = []
  · subst hc
    simp
  · rw [if_pos ⟨rfl, hc⟩]
    refine ⟨fun h => absurd h hc, fun _ => ⟨rfl, by simp⟩, by simp, rfl⟩

/-- C4 (witness): one cancel before completion, one after. -/
theorem c4_cancel_abort_semantics_witness :
    (rqRun true true (.ok (some (.str "d")))
      ([RqEvent.cancel] ++ RqEvent.complete :: [RqEvent.cancel])).raises = 1 ∧
    (rqRun true true (.ok (some (.str "d")))
      ([RqEvent.cancel] ++ RqEvent.complete :: [RqEvent.cancel])).settleEvents =
      [.err abortError] :=
  (c4_cancel_abort_semantics (.ok (some (.str "d"))) [RqEvent.cancel] [RqEvent.cancel]
    (by simp) (by simp)).2.1 (by simp)

/-- The try block passes at most one envelope to `onSuccess`. -/
theorem execTry_succs_le_one (cfg : ExecCfg) (fb : FetchBehavior) (r : ExecResult)
    (s : List JVal) (h : execTry cfg fb = .ok (r, s)) : s.length ≤ 1 := by
  unfold execTry at h
  repeat' split at h
  all_goals simp_all
  all_goals (rcases h with ⟨h1, h2⟩; subst h2; simp)

/-- An `isOkTrue` envelope has `ok` bound to literal `true`. -/
theorem isOkTrue_lookup {j : JVal} (h : isOkTrue j = true) :
    jlookup j "ok" = some (.bool true) := by
  unfold isOkTrue at h
  split at h
  next heq => exact heq
  next => simp at h

/-- An `isOkFalse` envelope has `ok` bound to literal `false`. -/
theorem isOkFalse_lookup {j : JVal} (h : isOkFalse j = true) :
    jlookup j "ok" = some (.bool false) := by
  unfold isOkFalse at h
  split at h
  next heq => exact heq
  next => simp at h

/-- A value with a successful property lookup is an object. -/
theorem jlookup_some_obj {j : JVal} {k : String} {v : JVal}
    (h : jlookup j k = some v) : ∃ fields, j = .obj fields := by
  cases j <;> first | exact ⟨_, rfl⟩ | simp [jlookup] at h

/-- Decomposition of a well-formed failure envelope's `error` object. -/
theorem hasErr_decomp {j : JVal} (h : hasErrObjWithMsg j = true) :
    ∃ fs, jlookup j "error" = some (.obj fs) ∧
      ∃ s, lookupField fs "message" = some (.str s) := by
  unfold hasErrObjWithMsg at h
  split at h
  next fs heq =>
    split at h
    next s heq2 => exact ⟨fs, heq, s, heq2⟩
    next => simp at h
  next => simp at h

/-- A configuration whose deserialize hook always throws. -/
def cfgThrow : ExecCfg :=
  { deserialize := fun _ => .error (.js "bad"), hasOnSuccess := false, hasOnError := true }

/-- C5: `executeRequest` never throws across its own boundary — every
invocation yields a tagged `{ok:true, data}` / `{ok:false, error}` local
result — and each failure class of ordinary exceptions (a transport throw or
abort from `fetch`, an unparseable body from `res.json()`, a deserialize
throw) is converted into a transport-origin `TRPCClientError`: no envelope
attached, the original error recorded. (Hook exceptions are outside the
contract and hooks are modelled as non-throwing.) -/
theorem c5_executor_never_throws :
    (∀ (cfg : ExecCfg) (fb : FetchBehavior), (executeRequestJS cfg fb).isOk = true)
    ∧ (∀ (cfg : ExecCfg) (msg : String),
      (executeRequestTotal cfg (.fetchThrows (.js msg))).result =
        .err (mkClientError msg false none (some msg)))
    ∧ (∀ (cfg : ExecCfg) (msg : String),
      (executeRequestTotal cfg (.jsonThrows (.js msg))).result =
        .err (mkClientError msg true none (some msg)))
    ∧ (∀ (cfg : ExecCfg) (raw : JVal) (msg : String),
      cfg.deserialize raw = .error (.js msg) →
      (executeRequestTotal cfg (.body raw)).result =
        .err (mkClientError msg true none (some msg))) := by
  refine ⟨?_, ?_, ?_, ?_⟩
  · intro cfg fb
    unfold executeRequestJS
    cases h : execTry cfg fb with
    | ok p => obtain ⟨r, s⟩ := p; rfl
    | error w => rfl
  · intro cfg msg
    rfl
  · intro cfg msg
    rfl
  · intro cfg raw msg h
    simp [executeRequestTotal, executeRequestJS, execTry, h, truthy]

/-- C5 (witness): a deserialize throw at a concrete input is converted. -/
theorem c5_executor_never_throws_witness :
    cfgThrow.deserialize .null = .error (.js "bad") ∧
    (executeRequestTotal cfgThrow (.body .null)).result =
      .err (mkClientError "bad" true none (some "bad")) :=
  ⟨rfl, c5_executor_never_throws.2.2.2 cfgThrow .null "bad" rfl⟩

/-- C6 (counterexample): with the error hook configured, a well-formed
failure envelope takes the in-try `{ok:false, error}` return, which does NOT
invoke `onError` — only the catch block does. So "on any error path onError
fires exactly once" fails on the envelope-origin error path. -/
theorem c6_failure_envelope_skips_onError :
    cfg0.hasOnError = true ∧
    wfEnvelope envConflict = true ∧
    (executeRequestTotal cfg0 (.body envConflict)).result =
      .err (mkClientError "conflict" true (some envConflict) none) ∧
    (executeRequestTotal cfg0 (.body envConflict)).errorCalls = [] :=
  ⟨rfl, rfl, rfl, rfl⟩

/-- C6 (amended): per `executeRequest` call at most one of the two hooks
fires; for a deserialized well-formed envelope, `onSuccess` fires exactly
when the discriminant is `ok: true`; `onError` fires exactly once on every
exception path (transport throw, unparseable body, deserialize throw); but
the well-formed failure-envelope path returns `{ok:false, error}` without
firing `onError`. -/
theorem c6_hook_discipline :
    (∀ (cfg : ExecCfg) (fb : FetchBehavior),
      (executeRequestTotal cfg fb).successCalls.length +
        (executeRequestTotal cfg fb).errorCalls.length ≤ 1)
    ∧ (∀ (cfg : ExecCfg) (raw j : JVal),
      cfg.deserialize raw = .ok (some j) → wfEnvelope j = true → cfg.hasOnSuccess = true →
      ((executeRequestTotal cfg (.body raw)).successCalls = [j] ↔ isOkTrue j = true))
    ∧ (∀ (cfg : ExecCfg) (t : Thrown), cfg.hasOnError = true →
      (executeRequestTotal cfg (.fetchThrows t)).errorCalls.length = 1)
    ∧ (∀ (cfg : ExecCfg) (t : Thrown), cfg.hasOnError = true →
      (executeRequestTotal cfg (.jsonThrows t)).errorCalls.length = 1)
    ∧ (∀ (cfg : ExecCfg) (raw : JVal) (t : Thrown),
      cfg.hasOnError = true → cfg.deserialize raw = .error t →
      (executeRequestTotal cfg (.body raw)).errorCalls.length = 1)
    ∧ (∀ (cfg : ExecCfg) (raw j : JVal),
      cfg.deserialize raw = .ok (some j) → isOkFalse j = true → hasErrObjWithMsg j = true →
      (executeRequestTotal cfg (.body raw)).errorCalls = [] ∧
      ∃ e, (executeRequestTotal cfg (.body raw)).result = .err e) := by
  refine ⟨?_, ?_, ?_, ?_, ?_, ?_⟩
  · intro cfg fb
    unfold executeRequestTotal executeRequestJS
    cases h : execTry cfg fb with
    | ok p =>
      obtain ⟨r, s⟩ := p
      have hs := execTry_succs_le_one cfg fb r s h
      simpa using hs
    | error w =>
      cases hE : cfg.hasOnError <;> simp [hE]
  · intro cfg raw j hdes hwf hS
    unfold wfEnvelope at hwf
    simp only [Bool.or_eq_true, Bool.and_eq_true] at hwf
    rcases hwf with hT | ⟨hF, hM⟩
    · have hok := isOkTrue_lookup hT
      obtain ⟨jf, rfl⟩ := jlookup_some_obj hok
      simp only [jlookup] at hok
      constructor
      · intro _; exact hT
      · intro _
        simp [executeRequestTotal, executeRequestJS, execTry, hdes, jlookup, hok,
          truthy, hS]
    · have hok := isOkFalse_lookup hF
      obtain ⟨jf, rfl⟩ := jlookup_some_obj hok
      simp only [jlookup] at hok
      obtain ⟨fs, herr, s, hmsg⟩ := hasErr_decomp hM
      simp only [jlookup] at herr
      have hT : isOkTrue (.obj jf) = false := by simp [isOkTrue, jlookup, hok]
      constructor
      · intro hcalls
        have hnil : (executeRequestTotal cfg (.body raw)).successCalls = [] := by
          simp [executeRequestTotal, executeRequestJS, execTry, hdes, jlookup, hok,
            truthy, jsGet, herr, hmsg]
        rw [hnil] at hcalls
        simp at hcalls
      · intro h'
        rw [hT] at h'
        simp at h'
  · intro cfg t hE
    cases t <;> simp [executeRequestTotal, executeRequestJS, execTry, hE]
  · intro cfg t hE
    cases t <;> simp [executeRequestTotal, executeRequestJS, execTry, hE]
  · intro cfg raw t hE hdes
    cases t <;> simp [executeRequestTotal, executeRequestJS, execTry, hE, hdes]
  · intro cfg raw j hdes hF hM
    have hok := isOkFalse_lookup hF
    obtain ⟨jf, rfl⟩ := jlookup_some_obj hok
    simp only [jlookup] at hok
    obtain ⟨fs, herr, s, hmsg⟩ := hasErr_decomp hM
    simp only [jlookup] at herr
    constructor
    · simp [executeRequestTotal, executeRequestJS, execTry, hdes, jlookup, hok,
        truthy, jsGet, herr, hmsg]
    · exact ⟨mkClientError s true (some (.obj jf)) none,
        by simp [executeRequestTotal, executeRequestJS, execTry, hdes, jlookup, hok,
          truthy, jsGet, herr, hmsg, jsToStr]⟩

/-- C6 (witness): a concrete success envelope fires `onSuccess`, and a
concrete deserialize throw with the error hook configured fires `onError`
exactly once. -/
theorem c6_hook_discipline_witness :
    cfg0.deserialize envOkData = .ok (some envOkData) ∧
    wfEnvelope envOkData = true ∧
    cfg0.hasOnSuccess = true ∧
    ((executeRequestTotal cfg0 (.body envOkData)).successCalls = [envOkData] ↔
      isOkTrue envOkData = true) ∧
    cfgThrow.hasOnError = true ∧
    cfgThrow.deserialize .null = .error (.js "bad") ∧
    (executeRequestTotal cfgThrow (.body .null)).errorCalls.length = 1 :=
  ⟨rfl, rfl, rfl, c6_hook_discipline.2.1 cfg0 envOkData envOkData rfl rfl rfl,
   rfl, rfl, c6_hook_discipline.2.2.2.2.1 cfgThrow .null (.js "bad") rfl rfl⟩
